import Mathlib

/-!
Verification of the session/connection manager in `flexx/ui/app/app.py`:
the `AppManager` registry, the `Proxy` lifecycle state machine with its
command buffer, mirrored-class registration, and the `port_hash` port
derivation function.  Python objects are embedded shallowly: the
websocket collaborator becomes a `Channel` record that logs the commands
it receives, proxies and the manager become records, in-place list
mutation becomes explicit state passing (functions that can raise return
`Except` and, where partial mutation before a raise matters, also return
the state reached at the raise point), and `assert`/`raise` become
`Err` values.
-/

namespace Flexx

/-- The websocket collaborator: `close_code` (None while open) plus a log
of the commands delivered through `command`. -/
structure Channel where
  closeCode : Option Nat
  received : List String
deriving DecidableEq, Repr

/-- `ws.command(cmd)`: deliver one command over the channel (append to the
log of received commands). -/
def Channel.command (ch : Channel) (cmd : String) : Channel :=
  { ch with received := ch.received ++ [cmd] }

/-- `Proxy.STATUS = create_enum('PENDING', 'CONNECTED', 'CLOSED')`. -/
inductive Status where
  | PENDING
  | CONNECTED
  | CLOSED
deriving DecidableEq, Repr

/-- The exceptions the embedded code can raise: `AssertionError` for the
`assert` statements (invalid state), the `RuntimeError`s of
`_send_command` (app is closed), `connect_client` (dangling app id) and
`eval` (app not connected), a `KeyError` on `self._proxies[name]` for an
unregistered name, and the `AttributeError` from touching `cls.__name__`
when no class is registered. -/
inductive Err where
  | invalidState
  | channelClosed
  | danglingInstanceId
  | unknownApplication
  | notConnected
  | attributeError
deriving DecidableEq, Repr

/-- A `Proxy` (`app.py` class `Proxy`): `_app_name`, the process-unique
`id` (`pid`), the external runtime handle `_runtime`, the websocket
`_ws`, the owned widget `_widget`, `_known_mirrored_classes` (as a list
of class identifiers) and the `_pending_commands` buffer.  Opaque Python
objects (runtime handle, widget instance, class identifiers) are
represented by `Nat`. -/
structure Proxy where
  appName : String
  pid : Nat
  runtime : Option Nat
  ws : Option Channel
  widget : Option Nat
  knownClasses : List Nat
  pendingCommands : List String
deriving DecidableEq, Repr

/-- `Proxy.__init__` with `runtime=None` or `runtime='notebook'` (no
channel attached, no widget, empty command queue); `known0` is the
content of `clientCode.get_defined_mirrored_classes()` copied into
`_known_mirrored_classes`, and `rt` is the handle from `launch` when a
runtime string was given (`none` for `runtime=None`). -/
def Proxy.new (appName : String) (pid : Nat) (known0 : List Nat)
    (rt : Option Nat) : Proxy :=
  { appName := appName, pid := pid, runtime := rt, ws := none,
    widget := none, knownClasses := known0, pendingCommands := [] }

/-- `Proxy.status`: PENDING when `_ws is None`, CONNECTED when
`_ws.close_code is None`, CLOSED otherwise.  Computed, never stored. -/
def Proxy.status (p : Proxy) : Status :=
  match p.ws with
  | none => .PENDING
  | some ch =>
    match ch.closeCode with
    | none => .CONNECTED
    | some _ => .CLOSED

/-- `Proxy._send_command`: write to the channel when CONNECTED, append to
`_pending_commands` when PENDING, raise when CLOSED. -/
def Proxy.sendCommand (p : Proxy) (cmd : String) : Except Err Proxy :=
  match p.ws with
  | some ch =>
    if ch.closeCode = none then .ok { p with ws := some (ch.command cmd) }
    else .error .channelClosed
  | none => .ok { p with pendingCommands := p.pendingCommands ++ [cmd] }

/-- `Proxy._connect_client(ws)`: `assert self._ws is None`, set the
websocket, then send every pending command over it in order (the buffer
list itself is not cleared by the source). -/
def Proxy.connectClient (p : Proxy) (ws : Channel) : Except Err Proxy :=
  match p.ws with
  | some _ => .error .invalidState
  | none => .ok { p with ws := some (p.pendingCommands.foldl Channel.command ws) }

/-- `Proxy._set_widget(widget)`: `assert self._widget is None`, then set it. -/
def Proxy.setWidget (p : Proxy) (w : Nat) : Except Err Proxy :=
  match p.widget with
  | some _ => .error .invalidState
  | none => .ok { p with widget := some w }

/-- `Proxy.close`: close the external runtime handle if any (an effect on
the collaborator, not on the proxy record) and drop the widget reference
to break the cycle.  `_ws`, `_pending_commands`, `_runtime` and the rest
are untouched. -/
def Proxy.close (p : Proxy) : Proxy :=
  { p with widget := none }

/-- `Proxy.eval(code)`: raise if `_ws is None`, else send `EVAL `+code. -/
def Proxy.evalCode (p : Proxy) (code : String) : Except Err Proxy :=
  match p.ws with
  | none => .error .notConnected
  | some _ => p.sendCommand ("EVAL " ++ code)

/-- Sequentially issue a list of commands via `_send_command`, stopping at
the first error (helper used to state trace properties). -/
def sendAll (p : Proxy) : List String → Except Err Proxy
  | [] => .ok p
  | c :: cs =>
    match p.sendCommand c with
    | .ok p1 => sendAll p1 cs
    | .error e => .error e

/-- A registered widget class, identified by its `__name__` (`cname`)
and an opaque identity (`wid`) so that distinct classes with the same
name can be told apart, as Python `is` does. -/
structure WidgetClass where
  cname : String
  wid : Nat
deriving DecidableEq, Repr

/-- One value of the `AppManager._proxies` dict:
`(WidgetClass, pending, connected)`; the class is `None` for the
`__default__` entry. -/
structure Entry where
  cls : Option WidgetClass
  pending : List Proxy
  connected : List Proxy
deriving DecidableEq, Repr

/-- `AppManager`: the `_proxies` dict, kept in insertion order as Python
dicts are. -/
structure AppManager where
  proxies : List (String × Entry)
deriving DecidableEq, Repr

/-- `AppManager.__init__`: `{'__default__': (None, [], [])}`. -/
def AppManager.init : AppManager :=
  { proxies := [("__default__", { cls := none, pending := [], connected := [] })] }

/-- `self._proxies[name]` as a lookup (first binding of `name`). -/
def lookupEntry (m : AppManager) (name : String) : Option Entry :=
  (m.proxies.find? (fun kv => kv.1 = name)).map Prod.snd

/-- `self._proxies[name] = entry`: overwrite in place when the key is
present, append otherwise (Python dict update semantics). -/
def setEntry (m : AppManager) (name : String) (e : Entry) : AppManager :=
  if (m.proxies.find? (fun kv => kv.1 = name)).isSome then
    { proxies := m.proxies.map (fun kv => if kv.1 = name then (name, e) else kv) }
  else
    { proxies := m.proxies ++ [(name, e)] }

/-- `AppManager.register_app_class(cls)`: start from fresh empty lists,
keep the old lists only when the name is present and the stored class is
a different object (`cls is not self._proxies[name][0]`), then store
`(cls, pending, connected)` under `cls.__name__`.  Never raises. -/
def AppManager.registerAppClass (m : AppManager) (cls : WidgetClass) : AppManager :=
  let name := cls.cname
  match lookupEntry m name with
  | some e =>
    if e.cls = some cls then
      setEntry m name { cls := some cls, pending := [], connected := [] }
    else
      setEntry m name { cls := some cls, pending := e.pending, connected := e.connected }
  | none => setEntry m name { cls := some cls, pending := [], connected := [] }

/-- `AppManager.get_default_proxy()`: with `proxies = pending + connected`
return `proxies[-1]` when non-empty, else create
`Proxy('__default__', runtime)` and append it to the pending list.
`freshId` is the `id()` of the newly allocated proxy, `rt` the runtime
handle from launching its runtime. -/
def AppManager.getDefaultProxy (m : AppManager) (known0 : List Nat)
    (rt : Option Nat) (freshId : Nat) : Option (Proxy × AppManager) :=
  match lookupEntry m "__default__" with
  | none => none
  | some e =>
    match (e.pending ++ e.connected).getLast? with
    | some p => some (p, m)
    | none =>
      let p := Proxy.new "__default__" freshId known0 rt
      some (p, setEntry m "__default__" { e with pending := e.pending ++ [p] })

/-- The `for proxy in pending: if proxy.id == app_id: pending.remove(proxy);
break` scan of `connect_client`: first proxy whose id matches, together
with the pending list after removing it; `none` reaches the `for`-`else`. -/
def removeById (aid : Nat) : List Proxy → Option (Proxy × List Proxy)
  | [] => none
  | p :: ps =>
    if p.pid = aid then some (p, ps)
    else
      match removeById aid ps with
      | some (q, qs) => some (q, p :: qs)
      | none => none

/-- `AppManager.connect_client(ws, name, app_id)`.  Returns the raised
error or the connected proxy, together with the manager state at return
or at the raise point (Python mutates the lists in place, so mutations
made before a raise persist).  `freshId`/`freshWidget` stand for the
`id()` of a newly created proxy and the newly instantiated widget. -/
def AppManager.connectClient (m : AppManager) (known0 : List Nat) (ws : Channel)
    (name : String) (appId : Option Nat) (freshId freshWidget : Nat) :
    Except Err Proxy × AppManager :=
  match lookupEntry m name with
  | none => (.error .unknownApplication, m)
  | some e =>
    let resolved : Except Err (Proxy × List Proxy) :=
      if name = "__default__" then
        match (e.pending).getLast? with
        | some p => .ok (p, e.pending.dropLast)
        | none => .ok (Proxy.new name freshId known0 none, e.pending)
      else
        match appId with
        | none =>
          match e.cls with
          | none => .error .attributeError
          | some c =>
            match (Proxy.new c.cname freshId known0 none).setWidget freshWidget with
            | .ok p => .ok (p, e.pending)
            | .error err => .error err
        | some aid =>
          match removeById aid e.pending with
          | some (p, rest) => .ok (p, rest)
          | none => .error .danglingInstanceId
    match resolved with
    | .error err => (.error err, m)
    | .ok (p, pending1) =>
      let m1 := setEntry m name { e with pending := pending1 }
      if p.status = Status.PENDING then
        match p.connectClient ws with
        | .ok p1 =>
          (.ok p1, setEntry m name { e with pending := pending1,
                                            connected := e.connected ++ [p1] })
        | .error err => (.error err, m1)
      else
        (.error .invalidState, m1)

/-- `AppManager.disconnect_client(proxy)`: remove the proxy from the
connected list of its app (tolerating absence), then `proxy.close()`. -/
def AppManager.disconnectClient (m : AppManager) (p : Proxy) : AppManager × Proxy :=
  match lookupEntry m p.appName with
  | none => (m, p.close)
  | some e =>
    (setEntry m p.appName { e with connected := e.connected.erase p }, p.close)

/-- A Mirrored class descriptor: identity `cid` (Python object identity in
the `_known_mirrored_classes` set), the `get_js()` / `get_css()` payloads
and `bases`, the prefix of `cls.mro()[1:]` consisting of the Mirrored
classes (the `for`-loop of `register_mirrored` `break`s at the first
non-Mirrored entry, so everything past it is irrelevant). -/
inductive MClass where
  | mk (cid : Nat) (js : String) (css : String) (bases : List MClass)

def MClass.cid : MClass → Nat
  | .mk i _ _ _ => i

def MClass.js : MClass → String
  | .mk _ j _ _ => j

def MClass.css : MClass → String
  | .mk _ _ c _ => c

def MClass.bases : MClass → List MClass
  | .mk _ _ _ b => b

/-- The DEFINE commands one class emission produces: `DEFINE-JS` with the
script payload, then `DEFINE-CSS` with the style payload when the latter
is non-empty after stripping whitespace (`css.strip()` is truthy exactly
when some character of `css` is not whitespace). -/
def defineCmds (c : MClass) : List String :=
  ["DEFINE-JS " ++ c.js]
    ++ (if c.css.data.all Char.isWhitespace then [] else ["DEFINE-CSS " ++ c.css])

mutual

/-- `Proxy.register_mirrored(cls)` acting on `_known_mirrored_classes`
(threaded as `known`); the second component is the sequence of command
strings handed to `self._send_command`, in order.  Return immediately if
already known; otherwise walk `cls.mro()[1:]` registering each not-yet-
known Mirrored base recursively, then add `cls` to the known set and emit
its DEFINE command(s). -/
def registerMirrored (known : List Nat) : MClass → List Nat × List String
  | .mk cid js css bases =>
    if cid ∈ known then (known, [])
    else
      let r := registerBases known bases
      (cid :: r.1,
        r.2 ++ ["DEFINE-JS " ++ js]
            ++ (if css.data.all Char.isWhitespace then [] else ["DEFINE-CSS " ++ css]))

/-- The `for cls2 in cls.mro()[1:]` loop of `register_mirrored`: register
each not-yet-known base in order, threading the known set. -/
def registerBases (known : List Nat) : List MClass → List Nat × List String
  | [] => (known, [])
  | b :: bs =>
    let r := if b.cid ∈ known then (known, ([] : List String))
             else registerMirrored known b
    let s := registerBases r.1 bs
    (s.1, r.2 ++ s.2)

end

/-- `port_hash(name)` on the sequence of character ordinals of the input
string: a rolling hash folded into `49152 + val % 2^14`. -/
def port_hash (name : List Nat) : Nat :=
  let fac : Nat := 0xd2d84a61
  let val := name.foldl (fun v c => v + (v >>> 3) + c * fac) 0
  let val2 := val + (val >>> 3) + name.length * fac
  49152 + val2 % (2 ^ 14)

/-- The seed string `'flexx+%i' % i` as character ordinals. -/
def seed (i : Nat) : List Nat :=
  [102, 108, 101, 120, 120, 43] ++ (toString i).toList.map Char.toNat

/-- The shape `cls.mro()[1:]` takes (restricted to its Mirrored prefix)
under Python linear inheritance: each entry of the list is followed by
exactly its own Mirrored mro tail. -/
inductive ChainList : List MClass → Prop where
  | nil : ChainList []
  | cons (b : MClass) (hb : ChainList b.bases) : ChainList (b :: b.bases)

/-! Concrete objects used to instantiate the general theorems. -/

/-- An open channel with an empty log. -/
def chOpen : Channel := { closeCode := none, received := [] }

/-- A channel that has been closed with code 1000. -/
def chClosed : Channel := { closeCode := some 1000, received := [] }

/-- A freshly launched, still pending proxy. -/
def exPending : Proxy := Proxy.new "Calc" 1 [] none

/-- A connected proxy owning a widget. -/
def exConnected : Proxy :=
  { Proxy.new "Calc" 2 [] none with ws := some chOpen, widget := some 5 }

/-- A proxy whose channel has closed. -/
def exClosed : Proxy := { Proxy.new "Calc" 3 [] none with ws := some chClosed }

/-- A pending proxy for the default app. -/
def pDefPending : Proxy := Proxy.new "__default__" 11 [] none

/-- A connected proxy for the default app. -/
def pDefConnected : Proxy :=
  { Proxy.new "__default__" 12 [] none with ws := some chOpen }

/-- A default-app proxy that already holds a channel while sitting in the
pending list (the state in which re-attachment must fail). -/
def pStale : Proxy :=
  { Proxy.new "__default__" 13 [] none with ws := some chOpen }

/-- A manager whose default entry has one pending and one connected proxy. -/
def mgrDefault : AppManager :=
  ⟨[("__default__", { cls := none, pending := [pDefPending], connected := [pDefConnected] })]⟩

/-- A manager whose default pending list holds `pStale`. -/
def mgrStale : AppManager :=
  ⟨[("__default__", { cls := none, pending := [pStale], connected := [] })]⟩

/-- A registered application class named `A`. -/
def clsA : WidgetClass := { cname := "A", wid := 7 }

/-- A pending proxy of application `A`. -/
def prxA : Proxy := Proxy.new "A" 21 [] none

/-- A manager with the default entry plus app `A` having one pending proxy. -/
def mgrA : AppManager :=
  ⟨[("__default__", { cls := none, pending := [], connected := [] }),
    ("A", { cls := some clsA, pending := [prxA], connected := [] })]⟩

/-- A root mirrored class with whitespace-only CSS. -/
def mClassA : MClass := .mk 1 "A" " " []

/-- A mirrored class derived from `mClassA`, with non-empty CSS. -/
def mClassB : MClass := .mk 2 "B" "x" [mClassA]

/-! Helper lemmas about the registry dictionary. -/

theorem find?_overwrite (l : List (String × Entry)) (name : String) (e : Entry) :
    ((l.map (fun kv => if kv.1 = name then (name, e) else kv)).find?
        (fun kv => kv.1 = name))
      = if (l.find? (fun kv => kv.1 = name)).isSome then some (name, e) else none := by
  induction l with
  | nil => simp
  | cons kv l ih =>
    by_cases hk : kv.1 = name
    · simp [hk]
    · rw [List.map_cons, if_neg hk, List.find?_cons_of_neg _ (by simp [hk]),
        List.find?_cons_of_neg _ (by simp [hk]), ih]

theorem find?_append_single (l : List (String × Entry)) (name : String) (e : Entry)
    (h : l.find? (fun kv => kv.1 = name) = none) :
    (l ++ [(name, e)]).find? (fun kv => kv.1 = name) = some (name, e) := by
  induction l with
  | nil => simp
  | cons kv l ih =>
    by_cases hk : kv.1 = name
    · rw [List.find?_cons_of_pos _ (by simp [hk])] at h
      exact absurd h (by simp)
    · rw [List.find?_cons_of_neg _ (by simp [hk])] at h
      rw [List.cons_append, List.find?_cons_of_neg _ (by simp [hk])]
      exact ih h

theorem lookupEntry_setEntry (m : AppManager) (name : String) (e : Entry) :
    lookupEntry (setEntry m name e) name = some e := by
  obtain ⟨l⟩ := m
  unfold setEntry lookupEntry
  by_cases h : (l.find? (fun kv => kv.1 = name)).isSome
  · rw [if_pos h, find?_overwrite, if_pos h]
    rfl
  · rw [if_neg h]
    rw [Option.not_isSome_iff_eq_none] at h
    show Option.map Prod.snd ((l ++ [(name, e)]).find? (fun kv => kv.1 = name)) = some e
    rw [find?_append_single l name e h]
    rfl

/-! Helper lemmas about command traces. -/

theorem sendAll_pending (cmds : List String) (p : Proxy) (h : p.ws = none) :
    sendAll p cmds = .ok { p with pendingCommands := p.pendingCommands ++ cmds } := by
  induction cmds generalizing p with
  | nil => simp [sendAll]
  | cons c cs ih =>
    have step : p.sendCommand c = .ok { p with pendingCommands := p.pendingCommands ++ [c] } := by
      simp [Proxy.sendCommand, h]
    simp only [sendAll, step]
    rw [ih { p with pendingCommands := p.pendingCommands ++ [c] } h]
    simp [List.append_assoc]

theorem foldl_command (l : List String) (ch : Channel) :
    l.foldl Channel.command ch = { ch with received := ch.received ++ l } := by
  induction l generalizing ch with
  | nil => simp
  | cons c cs ih => simp [Channel.command, ih, List.append_assoc]

theorem sendAll_connected (cmds : List String) (p : Proxy) (ch : Channel)
    (h : p.ws = some ch) (hc : ch.closeCode = none) :
    sendAll p cmds =
      .ok { p with ws := some { ch with received := ch.received ++ cmds } } := by
  induction cmds generalizing p ch with
  | nil =>
    simp only [sendAll, List.append_nil]
    rw [← h]
  | cons c cs ih =>
    have step : p.sendCommand c = .ok { p with ws := some (ch.command c) } := by
      simp [Proxy.sendCommand, h, hc]
    simp only [sendAll, step]
    rw [ih { p with ws := some (ch.command c) } (ch.command c) rfl hc]
    simp [Channel.command, List.append_assoc]

/-! Helper lemmas about the manager scan loops. -/

theorem removeById_none (aid : Nat) (l : List Proxy) (h : ∀ p ∈ l, p.pid ≠ aid) :
    removeById aid l = none := by
  induction l with
  | nil => rfl
  | cons p ps ih =>
    simp only [removeById]
    rw [if_neg (h p (List.mem_cons_self p ps)),
      ih (fun q hq => h q (List.mem_cons_of_mem p hq))]

/-! Helper lemmas about mirrored-class registration. -/

theorem registerMirrored_eq (k : List Nat) (c : MClass) :
    registerMirrored k c =
      if c.cid ∈ k then (k, [])
      else (c.cid :: (registerBases k c.bases).1,
            (registerBases k c.bases).2 ++ defineCmds c) := by
  cases c with
  | mk cid js css bases =>
    simp [registerMirrored, MClass.cid, MClass.bases, defineCmds, MClass.js, MClass.css]

theorem registerBases_nil (k : List Nat) : registerBases k [] = (k, []) := by
  simp [registerBases]

theorem registerBases_cons_known (k : List Nat) (b : MClass) (bs : List MClass)
    (h : b.cid ∈ k) : registerBases k (b :: bs) = registerBases k bs := by
  simp [registerBases, h]

theorem registerBases_cons_new (k : List Nat) (b : MClass) (bs : List MClass)
    (h : b.cid ∉ k) :
    registerBases k (b :: bs) =
      ((registerBases (registerMirrored k b).1 bs).1,
       (registerMirrored k b).2 ++ (registerBases (registerMirrored k b).1 bs).2) := by
  simp [registerBases, h]

theorem registerBases_all_known (k : List Nat) (l : List MClass)
    (h : ∀ b ∈ l, b.cid ∈ k) : registerBases k l = (k, []) := by
  induction l with
  | nil => exact registerBases_nil k
  | cons b bs ih =>
    rw [registerBases_cons_known k b bs (h b (List.mem_cons_self b bs)),
      ih (fun a ha => h a (List.mem_cons_of_mem b ha))]

theorem mem_registerBases (l : List MClass) (hch : ChainList l) (k : List Nat) (x : Nat) :
    x ∈ (registerBases k l).1 ↔ x ∈ k ∨ ∃ b ∈ l, b.cid = x := by
  induction hch generalizing k x with
  | nil => simp [registerBases_nil]
  | cons b hb ih =>
    by_cases hbk : b.cid ∈ k
    · rw [registerBases_cons_known k b b.bases hbk, ih]
      constructor
      · rintro (hk | ⟨a, ha, rfl⟩)
        · exact Or.inl hk
        · exact Or.inr ⟨a, List.mem_cons_of_mem b ha, rfl⟩
      · rintro (hk | ⟨a, ha, rfl⟩)
        · exact Or.inl hk
        · rcases List.mem_cons.1 ha with rfl | ha2
          · exact Or.inl hbk
          · exact Or.inr ⟨a, ha2, rfl⟩
    · have h1 : ∀ y : Nat, y ∈ (registerMirrored k b).1 ↔
          y = b.cid ∨ (y ∈ k ∨ ∃ a ∈ b.bases, a.cid = y) := by
        intro y
        rw [registerMirrored_eq, if_neg hbk]
        show y ∈ b.cid :: (registerBases k b.bases).1 ↔ _
        rw [List.mem_cons, ih]
      rw [registerBases_cons_new k b b.bases hbk]
      show x ∈ (registerBases (registerMirrored k b).1 b.bases).1 ↔ _
      rw [ih, h1]
      constructor
      · rintro ((rfl | hk | ⟨a, ha, rfl⟩) | ⟨a, ha, rfl⟩)
        · exact Or.inr ⟨b, List.mem_cons_self b b.bases, rfl⟩
        · exact Or.inl hk
        · exact Or.inr ⟨a, List.mem_cons_of_mem b ha, rfl⟩
        · exact Or.inr ⟨a, List.mem_cons_of_mem b ha, rfl⟩
      · rintro (hk | ⟨a, ha, rfl⟩)
        · exact Or.inl (Or.inr (Or.inl hk))
        · rcases List.mem_cons.1 ha with h2 | ha2
          · exact Or.inl (Or.inl (by rw [h2]))
          · exact Or.inr ⟨a, ha2, rfl⟩

theorem registerBases_emits (l : List MClass) (hch : ChainList l) (k : List Nat) :
    (registerBases k l).2 =
      ((l.reverse.filter (fun b => decide (b.cid ∉ k))).map defineCmds).flatten := by
  induction hch generalizing k with
  | nil => simp [registerBases_nil]
  | cons b hb ih =>
    by_cases hbk : b.cid ∈ k
    · rw [registerBases_cons_known k b b.bases hbk, ih]
      simp [List.filter_append, hbk]
    · have hall : ∀ a ∈ b.bases, a.cid ∈ (registerMirrored k b).1 := by
        intro a ha
        rw [registerMirrored_eq, if_neg hbk]
        exact List.mem_cons_of_mem _
          ((mem_registerBases b.bases hb k a.cid).2 (Or.inr ⟨a, ha, rfl⟩))
      rw [registerBases_cons_new k b b.bases hbk]
      show (registerMirrored k b).2 ++ (registerBases (registerMirrored k b).1 b.bases).2 = _
      rw [registerBases_all_known _ _ hall]
      rw [registerMirrored_eq, if_neg hbk]
      show (registerBases k b.bases).2 ++ defineCmds b ++ [] = _
      rw [ih]
      simp [List.filter_append, hbk]

/-! Claim theorems. -/

/-- C10: `Proxy.close` leaves the channel field and the command buffer
(and the runtime handle field) unchanged and only clears the owned widget
reference; since `status` derives solely from the channel, the status is
unchanged, and in particular a proxy that is CONNECTED immediately before
`close()` is still CONNECTED immediately after. -/
theorem close_frame (p : Proxy) :
    p.close.ws = p.ws ∧ p.close.pendingCommands = p.pendingCommands ∧
    p.close.runtime = p.runtime ∧ p.close.widget = none ∧
    p.close.status = p.status ∧
    (p.status = .CONNECTED → p.close.status = .CONNECTED) :=
  ⟨rfl, rfl, rfl, rfl, rfl, fun h => h⟩

/-- Witness for C10: closing a concrete connected proxy leaves it CONNECTED. -/
theorem close_frame_witness : exConnected.close.status = .CONNECTED :=
  (close_frame exConnected).2.2.2.2.2 (by decide)

/-- C6: `_send_command` writes straight to the channel when the proxy is
CONNECTED, appends to the command buffer when PENDING, and fails with the
channel-closed error (delivering and buffering nothing, as the returned
error carries no state change) when CLOSED. -/
theorem sendCommand_cases (p : Proxy) (cmd : String) :
    (p.status = .CONNECTED → ∃ ch, p.ws = some ch ∧
        p.sendCommand cmd = .ok { p with ws := some (ch.command cmd) }) ∧
    (p.status = .PENDING →
        p.sendCommand cmd = .ok { p with pendingCommands := p.pendingCommands ++ [cmd] }) ∧
    (p.status = .CLOSED → p.sendCommand cmd = .error .channelClosed) := by
  rcases hws : p.ws with _ | ch
  · refine ⟨fun hs => ?_, fun _ => ?_, fun hs => ?_⟩
    · simp [Proxy.status, hws] at hs
    · simp [Proxy.sendCommand, hws]
    · simp [Proxy.status, hws] at hs
  · rcases hcc : ch.closeCode with _ | n
    · refine ⟨fun _ => ⟨ch, hws ▸ rfl, ?_⟩, fun hs => ?_, fun hs => ?_⟩
      · simp [Proxy.sendCommand, hws, hcc]
      · simp [Proxy.status, hws, hcc] at hs
      · simp [Proxy.status, hws, hcc] at hs
    · refine ⟨fun hs => ?_, fun hs => ?_, fun _ => ?_⟩
      · simp [Proxy.status, hws, hcc] at hs
      · simp [Proxy.status, hws, hcc] at hs
      · simp [Proxy.sendCommand, hws, hcc]

/-- Witness for C6: a pending proxy buffers the command, a closed proxy
errors, a connected proxy writes through. -/
theorem sendCommand_cases_witness :
    exPending.sendCommand "EXEC x=1" =
        .ok { exPending with pendingCommands := ["EXEC x=1"] } ∧
    exClosed.sendCommand "EXEC x=1" = .error .channelClosed ∧
    (∃ ch, exConnected.ws = some ch ∧
      exConnected.sendCommand "EXEC x=1" =
        .ok { exConnected with ws := some (ch.command "EXEC x=1") }) :=
  ⟨(sendCommand_cases exPending "EXEC x=1").2.1 (by decide),
   (sendCommand_cases exClosed "EXEC x=1").2.2 (by decide),
   (sendCommand_cases exConnected "EXEC x=1").1 (by decide)⟩

/-- C9: `register_mirrored` is idempotent: after a first call, a second
call with the same class descriptor emits no commands and leaves the
known-class set unchanged. -/
theorem registerMirrored_idem (known : List Nat) (c : MClass) :
    registerMirrored (registerMirrored known c).1 c =
      ((registerMirrored known c).1, []) := by
  have h : c.cid ∈ (registerMirrored known c).1 := by
    rw [registerMirrored_eq]
    by_cases hk : c.cid ∈ known
    · rw [if_pos hk]
      exact hk
    · rw [if_neg hk]
      exact List.mem_cons_self _ _
  generalize hK : (registerMirrored known c).1 = K at h ⊢
  rw [registerMirrored_eq, if_pos h]

/-- C7: for a class descriptor whose declared base chain is a coherent
Mirrored mro (each base followed by its own tail) and which is itself not
yet known, `register_mirrored` emits exactly the DEFINE commands of the
not-yet-known ancestors, in least-derived-to-most-derived order, strictly
before the DEFINE commands of the descriptor itself; each ancestor
contributes its commands (at most) once, as each occurs at most once in
the filtered reversed base chain. -/
theorem registerMirrored_bases_first (known : List Nat) (c : MClass)
    (hch : ChainList c.bases) (hc : c.cid ∉ known) :
    (registerMirrored known c).2 =
      ((c.bases.reverse.filter (fun b => decide (b.cid ∉ known))).map defineCmds).flatten
        ++ defineCmds c := by
  rw [registerMirrored_eq, if_neg hc]
  show (registerBases known c.bases).2 ++ defineCmds c = _
  rw [registerBases_emits c.bases hch known]

/-- Witness for C7: registering the derived class `mClassB` with nothing
known emits the base's DEFINE-JS first, then the derived class's
DEFINE-JS and DEFINE-CSS. -/
theorem registerMirrored_bases_first_witness :
    (registerMirrored [] mClassB).2 =
      ["DEFINE-JS A", "DEFINE-JS B", "DEFINE-CSS x"] := by
  have h := registerMirrored_bases_first [] mClassB
    (ChainList.cons mClassA ChainList.nil) (by decide)
  rw [h]
  rfl

/-- C5 (amended): `port_hash` always returns a value in the closed range
`[49152, 65535]` (the upper bound is attained, see the counterexample, so
the half-open range of the claim is off by one); the seeds `flexx+0`
through `flexx+99` all map into `[49152, 65535)`; determinism is inherent
in the functional embedding. -/
theorem port_hash_range (s : List Nat) :
    (49152 ≤ port_hash s ∧ port_hash s ≤ 65535) ∧
    (∀ i, i < 100 → 49152 ≤ port_hash (seed i) ∧ port_hash (seed i) < 65535) := by
  constructor
  · have key : ∀ a : Nat, 49152 ≤ 49152 + a % 2 ^ 14 ∧ 49152 + a % 2 ^ 14 ≤ 65535 := by
      intro a
      have h := Nat.mod_lt a (show 0 < 2 ^ 14 by norm_num)
      omega
    exact key _
  · decide

/-- Counterexample for C5: the one-character string `chr(2182)` hashes to
port 65535, which the claimed half-open range `[49152, 65535)` excludes. -/
theorem port_hash_counterexample :
    port_hash [2182] = 65535 ∧ ¬ port_hash [2182] < 65535 := by
  constructor
  · rfl
  · decide

/-- Witness for C5: the amended range theorem applied to the seed list of
`flexx+0`, whose port is 52452. -/
theorem port_hash_range_witness :
    49152 ≤ port_hash (seed 0) ∧ port_hash (seed 0) < 65535 :=
  (port_hash_range (seed 0)).2 0 (by decide)

/-- C1: FIFO law.  Commands sent while a proxy is PENDING are buffered;
attaching a channel delivers the previously buffered commands plus the
newly sent ones, each exactly once, in issue order, before any command
sent after attachment. -/
theorem pending_fifo (p : Proxy) (ch : Channel) (cmds cmds2 : List String)
    (h1 : p.ws = none) (h2 : ch.closeCode = none) :
    ∃ p1 p2 p3 ch3,
      sendAll p cmds = .ok p1 ∧
      p1.connectClient ch = .ok p2 ∧
      sendAll p2 cmds2 = .ok p3 ∧
      p3.ws = some ch3 ∧
      ch3.received = ch.received ++ (p.pendingCommands ++ cmds ++ cmds2) := by
  refine ⟨{ p with pendingCommands := p.pendingCommands ++ cmds },
          { p with pendingCommands := p.pendingCommands ++ cmds,
                   ws := some { ch with received := ch.received ++ (p.pendingCommands ++ cmds) } },
          _, _, sendAll_pending cmds p h1, ?_,
          sendAll_connected cmds2 _
            { ch with received := ch.received ++ (p.pendingCommands ++ cmds) } rfl h2,
          rfl, ?_⟩
  · simp [Proxy.connectClient, h1, foldl_command]
  · simp [List.append_assoc]

/-- Witness for C1: one command buffered while pending and one sent after
attachment arrive in order, exactly once each. -/
theorem pending_fifo_witness :
    ∃ p1 p2 p3 ch3,
      sendAll exPending ["EXEC x=1"] = .ok p1 ∧
      p1.connectClient chOpen = .ok p2 ∧
      sendAll p2 ["EXEC y=2"] = .ok p3 ∧
      p3.ws = some ch3 ∧
      ch3.received = ["EXEC x=1", "EXEC y=2"] := by
  obtain ⟨p1, p2, p3, ch3, a, b, c, d, e⟩ :=
    pending_fifo exPending chOpen ["EXEC x=1"] ["EXEC y=2"] rfl rfl
  exact ⟨p1, p2, p3, ch3, a, b, c, d,
    by simpa [exPending, Proxy.new, chOpen] using e⟩

/-- C2 (amended): `get_default_proxy` returns the last element of
`pending + connected` — so the most recently added CONNECTED proxy wins
over any pending one whenever a connected proxy exists, and only when the
connected list is empty does the most recently added pending proxy win;
when both lists are empty a new instance-less proxy for `__default__` is
created and appended to the pending list. -/
theorem getDefaultProxy_spec (m : AppManager) (e : Entry) (known0 : List Nat)
    (rt : Option Nat) (fid : Nat) (h : lookupEntry m "__default__" = some e) :
    (∀ q, e.connected.getLast? = some q →
        m.getDefaultProxy known0 rt fid = some (q, m)) ∧
    (e.connected = [] → ∀ q, e.pending.getLast? = some q →
        m.getDefaultProxy known0 rt fid = some (q, m)) ∧
    (e.connected = [] → e.pending = [] →
        m.getDefaultProxy known0 rt fid =
          some (Proxy.new "__default__" fid known0 rt,
            setEntry m "__default__"
              { e with pending := [Proxy.new "__default__" fid known0 rt] })) := by
  refine ⟨?_, ?_, ?_⟩
  · intro q hq
    have hne : e.connected ≠ [] := by
      intro hnil
      rw [hnil] at hq
      exact Option.noConfusion hq
    simp only [AppManager.getDefaultProxy, h,
      List.getLast?_append_of_ne_nil e.pending hne, hq]
  · intro hc q hq
    simp only [AppManager.getDefaultProxy, h, hc, List.append_nil, hq]
  · intro hc hp
    simp only [AppManager.getDefaultProxy, h, hc, hp, List.append_nil,
      List.getLast?_nil, List.nil_append]

/-- Counterexample for C2: with one pending and one (later-added)
connected proxy in the default entry, `get_default_proxy` returns the
connected proxy, not the most recently added pending one. -/
theorem getDefaultProxy_counterexample :
    mgrDefault.getDefaultProxy [] none 99 = some (pDefConnected, mgrDefault) ∧
    pDefConnected ≠ pDefPending := by
  constructor
  · rfl
  · decide

/-- Witness for C2: the amended theorem instantiated on the concrete
registry with both a pending and a connected default proxy. -/
theorem getDefaultProxy_spec_witness :
    mgrDefault.getDefaultProxy [] none 7 = some (pDefConnected, mgrDefault) :=
  (getDefaultProxy_spec mgrDefault
    { cls := none, pending := [pDefPending], connected := [pDefConnected] }
    [] none 7 rfl).1 pDefConnected rfl

/-- C3: `connect_client` for a registered non-default name with an
instance id that matches no pending proxy raises the dangling-id error
and leaves the whole registry (every name's pending and connected lists)
exactly as it was. -/
theorem connectClient_dangling (m : AppManager) (known0 : List Nat) (ws : Channel)
    (name : String) (aid : Nat) (fid fw : Nat) (e : Entry)
    (h1 : lookupEntry m name = some e) (h2 : name ≠ "__default__")
    (h3 : ∀ q ∈ e.pending, q.pid ≠ aid) :
    m.connectClient known0 ws name (some aid) fid fw =
      (.error .danglingInstanceId, m) := by
  simp only [AppManager.connectClient, h1, if_neg h2,
    removeById_none aid e.pending h3]

/-- Witness for C3: asking app `A` for an unknown instance id fails with
the dangling-id error and returns the registry unchanged. -/
theorem connectClient_dangling_witness :
    mgrA.connectClient [] chOpen "A" (some 99) 5 6 =
      (.error .danglingInstanceId, mgrA) :=
  connectClient_dangling mgrA [] chOpen "A" 99 5 6
    { cls := some clsA, pending := [prxA], connected := [] }
    rfl (by decide) (by decide)

/-- C4 (amended): re-registering a name replaces the stored class and
never raises, and preserves the name's pending/connected lists when the
new class is a different object from the stored one; but when the new
class is the very class already stored, both lists are reset to empty
(the source only carries the old lists through the `cls is not old`
branch). -/
theorem registerAppClass_spec (m : AppManager) (cls : WidgetClass) (e : Entry)
    (h : lookupEntry m cls.cname = some e) :
    (e.cls ≠ some cls →
      lookupEntry (m.registerAppClass cls) cls.cname =
        some { cls := some cls, pending := e.pending, connected := e.connected }) ∧
    (e.cls = some cls →
      lookupEntry (m.registerAppClass cls) cls.cname =
        some { cls := some cls, pending := [], connected := [] }) := by
  constructor
  · intro hne
    simp only [AppManager.registerAppClass, h, if_neg hne]
    exact lookupEntry_setEntry m cls.cname _
  · intro heq
    simp only [AppManager.registerAppClass, h, if_pos heq]
    exact lookupEntry_setEntry m cls.cname _

/-- Counterexample for C4: re-registering the very class stored for `A`
wipes the non-empty pending list instead of preserving it. -/
theorem registerAppClass_counterexample :
    lookupEntry (mgrA.registerAppClass clsA) "A" =
      some { cls := some clsA, pending := [], connected := [] } ∧
    lookupEntry mgrA "A" =
      some { cls := some clsA, pending := [prxA], connected := [] } ∧
    ([] : List Proxy) ≠ [prxA] := by
  refine ⟨by rfl, by rfl, by decide⟩

/-- Witness for C4: the amended theorem instantiated on the concrete
registry, same-class branch. -/
theorem registerAppClass_spec_witness :
    lookupEntry (mgrA.registerAppClass clsA) "A" =
      some { cls := some clsA, pending := [], connected := [] } :=
  (registerAppClass_spec mgrA clsA
    { cls := some clsA, pending := [prxA], connected := [] } rfl).2 rfl

/-- A proxy whose channel is already set (CONNECTED or CLOSED) is not
PENDING. -/
theorem status_ne_pending (p : Proxy) (ch : Channel) (h : p.ws = some ch) :
    p.status ≠ Status.PENDING := by
  unfold Proxy.status
  rw [h]
  cases hcc : ch.closeCode <;> simp [hcc]

/-- C8: attaching a channel to a proxy whose channel is already set fails
with the invalid-state invariant error, both directly (`_connect_client`)
and via `connect_client` resolving to that proxy (default-name pop, or
instance-id match); the failing call never attaches a channel: the only
state change is the pending-list pop that preceded the assert, and the
connected lists are untouched. -/
theorem attach_twice_fails (p : Proxy) (ch : Channel) (h : p.ws = some ch) :
    (∀ ws2, p.connectClient ws2 = .error .invalidState) ∧
    (∀ (m : AppManager) (e : Entry) (known0 : List Nat) (ws2 : Channel) (fid fw : Nat),
      lookupEntry m "__default__" = some e → e.pending.getLast? = some p →
      m.connectClient known0 ws2 "__default__" none fid fw =
        (.error .invalidState,
         setEntry m "__default__" { e with pending := e.pending.dropLast })) ∧
    (∀ (m : AppManager) (e : Entry) (known0 : List Nat) (ws2 : Channel)
        (fid fw aid : Nat) (name : String) (rest : List Proxy),
      lookupEntry m name = some e → name ≠ "__default__" →
      removeById aid e.pending = some (p, rest) →
      m.connectClient known0 ws2 name (some aid) fid fw =
        (.error .invalidState, setEntry m name { e with pending := rest })) := by
  refine ⟨?_, ?_, ?_⟩
  · intro ws2
    simp [Proxy.connectClient, h]
  · intro m e known0 ws2 fid fw hlk hlast
    simp [AppManager.connectClient, hlk, hlast, status_ne_pending p ch h]
  · intro m e known0 ws2 fid fw aid name rest hlk hname hrem
    simp [AppManager.connectClient, hlk, hname, hrem, status_ne_pending p ch h]

/-- Witness for C8: re-attaching to the stale connected proxy fails both
directly and through the manager's default-name resolution. -/
theorem attach_twice_fails_witness :
    pStale.connectClient chOpen = .error .invalidState ∧
    mgrStale.connectClient [] chOpen "__default__" none 99 0 =
      (.error .invalidState,
       setEntry mgrStale "__default__"
         { cls := none, pending := [], connected := [] }) :=
  ⟨(attach_twice_fails pStale chOpen rfl).1 chOpen,
   (attach_twice_fails pStale chOpen rfl).2.1 mgrStale
     { cls := none, pending := [pStale], connected := [] }
     [] chOpen 99 0 rfl rfl⟩

end Flexx
